import Mathlib

/-!
# Verification of the URL checker pipeline

A shallow embedding of the two Python implementations
(`src/url_checker.py` and `web_scraper_latest.py`) of a pipeline that

* loads a whitespace-delimited URL file and deduplicates it,
* skips URLs already present in a SQLite `results` table,
* fetches each remaining URL, counting `<script>` tags on success and
  recording `Failed` on any `RequestException`,
* upserts one row per URL (`REPLACE INTO results`), and
* exports the whole table to a CSV file.

External collaborators (the HTTP client together with `raise_for_status`,
and the HTML parser) are black boxes, modelled as oracle parameters:
the network is a function from URL, user-agent and timeout to either a
document body or a request error, and `<script>`-counting is a function
from document body to a count.  The SQLite table is modelled as the list
of its rows in physical scan order; `REPLACE INTO` deletes the
conflicting row and appends the fresh one.  The thread pool commits
results in `as_completed` order, an arbitrary permutation of the work
list, so the run is parameterised by the processing order.
-/

/-! ## Python string primitives -/

/-- ASCII whitespace as recognised by Python's `str.split()` / `str.strip()`
(space, tab, newline, carriage return, vertical tab, form feed). -/
def isPyWs (c : Char) : Bool :=
  c = ' ' || c = '\t' || c = '\n' || c = '\r' || c = '\x0b' || c = '\x0c'

/-- Worker for `pySplit`: `acc` is the current (possibly empty) token read so
far, in order. -/
def splitWsAux : List Char → List Char → List String
  | [], acc => if acc.isEmpty then [] else [String.mk acc]
  | c :: rest, acc =>
    if isPyWs c then
      if acc.isEmpty then splitWsAux rest []
      else String.mk acc :: splitWsAux rest []
    else splitWsAux rest (acc ++ [c])

/-- Python `content.split()`: split on runs of whitespace, no empty tokens. -/
def pySplit (s : String) : List String :=
  splitWsAux s.data []

/-- Python `content.strip()`: drop leading and trailing whitespace. -/
def pyStrip (s : String) : String :=
  String.mk (((s.data.dropWhile isPyWs).reverse.dropWhile isPyWs).reverse)

/-! ## Data model -/

/-- The failure classes of the `requests` black box: every one of them is a
`RequestException` in Python, raised either by `requests.get` itself
(transport errors) or by `response.raise_for_status()` (error statuses). -/
inductive ReqErr where
  | nonSuccessStatus
  | connectionError
  | dnsFailure
  | timeout
  | tooManyRedirects
  | malformedResponse
  deriving DecidableEq, Repr

/-- The network oracle: URL, `User-Agent` header value and timeout to either
a document body or a request error. -/
def Net : Type := String → String → Nat → Except ReqErr String

/-- One row of the SQLite `results` table:
`url TEXT PRIMARY KEY, script_count INTEGER, status TEXT`. -/
structure Row where
  url : String
  script_count : Option Nat
  status : String
  deriving DecidableEq, Repr

/-- The `results` table, as its rows in physical scan order
(the order `SELECT url, script_count, status FROM results` returns). -/
abbrev Store : Type := List Row

/-- The keys (URLs) present in the store, in scan order. -/
def Store.keys (s : Store) : List String := s.map Row.url

/-- The rows of the store whose key is `u` (byte-for-byte, in order). -/
def Store.rowsFor (s : Store) (u : String) : List Row :=
  s.filter (fun r => r.url == u)

/-! ## CSV (the `csv` module's `excel` dialect)

`csv.writer` joins the fields of a row with `,` and terminates the row
with `\r\n`; a field containing a delimiter, a quote or a line-break
character is surrounded by quotes with inner quotes doubled
(`QUOTE_MINIMAL`).  A `None` field is written as the empty field and an
`int` via `str`.  `csv.reader` reverses this. -/

/-- Whether `QUOTE_MINIMAL` must quote the field. -/
def csvNeedsQuote (f : String) : Bool :=
  f.data.any (fun c => c = ',' || c = '"' || c = '\r' || c = '\n')

/-- Double every quote character (the `doublequote=True` escape). -/
def csvEscape : List Char → List Char
  | [] => []
  | c :: rest => if c = '"' then '"' :: '"' :: csvEscape rest else c :: csvEscape rest

/-- Serialise one field, quoting it only when needed. -/
def csvQuote (f : String) : String :=
  if csvNeedsQuote f then String.mk ('"' :: csvEscape f.data ++ ['"']) else f

/-- `csv.writer.writerow`: fields joined by `,`, terminated by `\r\n`. -/
def csvWriteRow (fs : List String) : String :=
  String.intercalate "," (fs.map csvQuote) ++ "\r\n"

/-- Yield the current record, unless it is fully empty (Python's reader
yields nothing for the empty tail after the final line terminator). -/
def csvFlush (acc : List Char) (row : List String) : List (List String) :=
  if acc.isEmpty && row.isEmpty then [] else [row ++ [String.mk acc]]

/-- `csv.reader`.  `q` is true inside a quoted field, `acc` the current
field so far, `row` the completed fields of the current record.  Outside
quotes a quote opening an empty field starts a quoted field, `,` ends a
field and `\r\n` / `\n` / `\r` ends a record; inside quotes `""` is a
literal quote and a single quote closes the quoted field. -/
def csvParseAux : Bool → List Char → List Char → List String → List (List String)
  | false, [], acc, row => csvFlush acc row
  | false, c :: rest, acc, row =>
    if c = ',' then csvParseAux false rest [] (row ++ [String.mk acc])
    else if c = '\r' then
      csvFlush acc row ++
        (match rest with
         | [] => []
         | c2 :: rest2 =>
           if c2 = '\n' then csvParseAux false rest2 [] []
           else csvParseAux false (c2 :: rest2) [] [])
    else if c = '\n' then csvFlush acc row ++ csvParseAux false rest [] []
    else if c = '"' then
      if acc.isEmpty then csvParseAux true rest acc row
      else csvParseAux false rest (acc ++ [c]) row
    else csvParseAux false rest (acc ++ [c]) row
  | true, [], acc, row => [row ++ [String.mk acc]]
  | true, c :: rest, acc, row =>
    if c = '"' then
      match rest with
      | [] => csvParseAux false [] acc row
      | c2 :: rest2 =>
        if c2 = '"' then csvParseAux true rest2 (acc ++ ['"']) row
        else csvParseAux false (c2 :: rest2) acc row
    else csvParseAux true rest (acc ++ [c]) row

/-- Parse a whole CSV document into its records. -/
def csvParse (s : String) : List (List String) :=
  csvParseAux false s.data [] []

/-- The number of `\r\n`-terminated lines of a string. -/
def crlfCount : List Char → Nat
  | [] => 0
  | c :: rest =>
    if c = '\r' then
      match rest with
      | [] => 0
      | c2 :: rest2 => if c2 = '\n' then crlfCount rest2 + 1 else crlfCount (c2 :: rest2)
    else crlfCount rest

/-! ## The `src/url_checker.py` implementation -/

namespace url_checker

/-- The fixed identifying `User-Agent` header of `process_url`. -/
def userAgent : String := "Mozilla/5.0 (compatible; URLChecker/1.0)"

/-- `load_urls`: read the file, `content.strip().split()`, then
`list(set(urls))` to remove duplicates. -/
def load_urls (content : String) : List String :=
  ((pySplit (pyStrip content))).dedup

/-- `get_processed_urls`: `SELECT url FROM results`, collected into a set. -/
def get_processed_urls (store : Store) : List String :=
  (store.map Row.url).dedup

/-- The `try:` block of `process_url`: `requests.get` +
`raise_for_status()` (the oracle), then parse and count `<script>` tags.
Any raised `RequestException` is the `.error` case. -/
def process_url_try (net : Net) (countScripts : String → Nat) (url : String)
    (timeout : Nat) : Except ReqErr (String × Option Nat × String) := do
  let body ← net url userAgent timeout
  pure (url, some (countScripts body), "Success")

/-- `process_url`: the `try/except RequestException` wrapper; every request
failure becomes `(url, None, 'Failed')`. -/
def process_url (net : Net) (countScripts : String → Nat) (url : String)
    (timeout : Nat) : String × Option Nat × String :=
  match process_url_try net countScripts url timeout with
  | .ok r => r
  | .error _ => (url, none, "Failed")

/-- `save_result`: `REPLACE INTO results (url, script_count, status)` —
SQLite deletes any row with the same primary key and inserts the new row
(fresh rowid, hence at the end of the scan order). -/
def save_result (store : Store) (url : String) (script_count : Option Nat)
    (status : String) : Store :=
  store.filter (fun r => r.url != url) ++ [⟨url, script_count, status⟩]

/-- The three CSV fields of a row: `None` script count is written as the
empty field, a number via `str`. -/
def rowToFields (r : Row) : List String :=
  [r.url, (match r.script_count with | none => "" | some n => toString n), r.status]

/-- `export_to_csv`: header row `['URL', 'Script Count', 'Status']` then
one row per stored result in scan order, as the full file content
(`open(..., 'w')` truncates, so this replaces whatever was there). -/
def export_to_csv (store : Store) : String :=
  String.join ((csvWriteRow ["URL", "Script Count", "Status"])
    :: store.map (fun r => csvWriteRow (rowToFields r)))

/-- `main`'s work list: `[url for url in urls if url not in processed_urls]`. -/
def urls_to_process (store : Store) (urls : List String) : List String :=
  urls.filter (fun u => !(get_processed_urls store).contains u)

/-- The commit loop of `main`: each completed future's result is saved
(upserted) as it arrives; `order` is the `as_completed` arrival order. -/
def runSaves (net : Net) (countScripts : String → Nat) (timeout : Nat)
    (store : Store) (order : List String) : Store :=
  order.foldl
    (fun s u =>
      match process_url net countScripts u timeout with
      | (url, script_count, status) => save_result s url script_count status)
    store

/-- One run of `main` against file content `content` and initial store
`store`, with the canonical (submission-order) arrival order; runs with
other `as_completed` arrival orders are `runSaves` over a permutation of
`urls_to_process`. -/
def main_run (net : Net) (countScripts : String → Nat) (timeout : Nat)
    (content : String) (store : Store) : Store :=
  runSaves net countScripts timeout store
    (urls_to_process store (load_urls content))

end url_checker

/-! ## The `web_scraper_latest.py` implementation

A line-for-line duplicate of `src/url_checker.py` up to configuration:
file paths are taken relative to the working directory instead of the
`data` directory (invisible at this level, which works on file contents)
and the `User-Agent` string differs. -/

namespace web_scraper

/-- The fixed identifying `User-Agent` header of `process_url`. -/
def userAgent : String := "Mozilla/5.0 (compatible; WebScraper/1.0)"

/-- `load_urls`: read the file, `content.strip().split()`, then
`list(set(urls))` to remove duplicates. -/
def load_urls (content : String) : List String :=
  ((pySplit (pyStrip content))).dedup

/-- `get_processed_urls`: `SELECT url FROM results`, collected into a set. -/
def get_processed_urls (store : Store) : List String :=
  (store.map Row.url).dedup

/-- The `try:` block of `process_url`. -/
def process_url_try (net : Net) (countScripts : String → Nat) (url : String)
    (timeout : Nat) : Except ReqErr (String × Option Nat × String) := do
  let body ← net url userAgent timeout
  pure (url, some (countScripts body), "Success")

/-- `process_url`: the `try/except RequestException` wrapper. -/
def process_url (net : Net) (countScripts : String → Nat) (url : String)
    (timeout : Nat) : String × Option Nat × String :=
  match process_url_try net countScripts url timeout with
  | .ok r => r
  | .error _ => (url, none, "Failed")

/-- `save_result`: `REPLACE INTO results (url, script_count, status)`. -/
def save_result (store : Store) (url : String) (script_count : Option Nat)
    (status : String) : Store :=
  store.filter (fun r => r.url != url) ++ [⟨url, script_count, status⟩]

/-- The three CSV fields of a row. -/
def rowToFields (r : Row) : List String :=
  [r.url, (match r.script_count with | none => "" | some n => toString n), r.status]

/-- `export_to_csv`: header row then one row per stored result. -/
def export_to_csv (store : Store) : String :=
  String.join ((csvWriteRow ["URL", "Script Count", "Status"])
    :: store.map (fun r => csvWriteRow (rowToFields r)))

/-- `main`'s work list. -/
def urls_to_process (store : Store) (urls : List String) : List String :=
  urls.filter (fun u => !(get_processed_urls store).contains u)

/-- The commit loop of `main`. -/
def runSaves (net : Net) (countScripts : String → Nat) (timeout : Nat)
    (store : Store) (order : List String) : Store :=
  order.foldl
    (fun s u =>
      match process_url net countScripts u timeout with
      | (url, script_count, status) => save_result s url script_count status)
    store

/-- One run of `main` with the canonical arrival order. -/
def main_run (net : Net) (countScripts : String → Nat) (timeout : Nat)
    (content : String) (store : Store) : Store :=
  runSaves net countScripts timeout store
    (urls_to_process store (load_urls content))

end web_scraper

/-! ## File write semantics -/

/-- `open(path, 'w')` followed by writing `newContent` truncates: the file's
content afterwards is `newContent`, whatever (if anything) was there. -/
def fileWriteTrunc (_oldContent : Option String) (newContent : String) : String :=
  newContent

/-! ## Spec-side definitions used to state the claims -/

/-- The store invariant of the data model: at most one row per URL, and
`script_count` is present exactly on the `Success` rows. -/
def storeInvariant (s : Store) : Prop :=
  (Store.keys s).Nodup
    ∧ ∀ r ∈ s, (r.script_count.isSome = true ↔ r.status = "Success")

/-- A network oracle that times out on every request (it ignores the
user-agent header, like any real network). -/
def netAllTimeout : Net := fun _ _ _ => .error .timeout

/-- The document body served for `http://a.test` in the concrete scenario
of the spec: a page with two `<script>` tags. -/
def bodyA : String := "<html><script></script><script></script></html>"

/-- The Fetcher stub of the concrete scenario: two script tags for
`http://a.test`, a timeout for everything else. -/
def netStubScenario : Net := fun url _ _ =>
  if url = "http://a.test" then .ok bodyA else .error .timeout

/-- The `<script>`-counting black box of the concrete scenario. -/
def countScriptsScenario : String → Nat := fun body => if body = bodyA then 2 else 0

/-- Reading one CSV data row back into a `Row`: an empty second field is an
absent count, a decimal second field a present one. -/
def fieldsToRow? (fs : List String) : Option Row :=
  match fs with
  | [u, c, st] =>
    if c = "" then some ⟨u, none, st⟩
    else (c.toNat?).map (fun n => ⟨u, some n, st⟩)
  | _ => none

/-- The decimal digits of `n`, most significant first (the reference
rendering that `Nat.toDigits 10` computes fuel-style). -/
def decDigits (n : Nat) : List Char :=
  if n < 10 then [Nat.digitChar n]
  else decDigits (n / 10) ++ [Nat.digitChar (n % 10)]
decreasing_by exact Nat.div_lt_self (by omega) (by omega)

/-- `10 ^ (number of decimal digits of n)`. -/
def decPow (n : Nat) : Nat :=
  if n < 10 then 10 else decPow (n / 10) * 10
decreasing_by exact Nat.div_lt_self (by omega) (by omega)

/-! ## Theorems -/

/-- C1: for every URL and timeout the Fetcher (`process_url`) is total — in
both implementations every oracle outcome produces a result triple, every
failure class (`raise_for_status` on a non-2xx status, transport error,
timeout, too many redirects, malformed response) yields
`(url, None, 'Failed')`, and the only other outcome is the success triple. -/
theorem C1_process_url_total_failed
    (net : Net) (countScripts : String → Nat) (url : String) (timeout : Nat) :
    (∀ e : ReqErr, net url url_checker.userAgent timeout = .error e →
      url_checker.process_url net countScripts url timeout = (url, none, "Failed"))
    ∧ (∀ body : String, net url url_checker.userAgent timeout = .ok body →
      url_checker.process_url net countScripts url timeout
        = (url, some (countScripts body), "Success"))
    ∧ (∀ e : ReqErr, net url web_scraper.userAgent timeout = .error e →
      web_scraper.process_url net countScripts url timeout = (url, none, "Failed"))
    ∧ (∀ body : String, net url web_scraper.userAgent timeout = .ok body →
      web_scraper.process_url net countScripts url timeout
        = (url, some (countScripts body), "Success")) := by
  refine ⟨fun e he => ?_, fun body hb => ?_, fun e he => ?_, fun body hb => ?_⟩
  · simp [url_checker.process_url, url_checker.process_url_try, he]
  · simp [url_checker.process_url, url_checker.process_url_try, hb]
  · simp [web_scraper.process_url, web_scraper.process_url_try, he]
  · simp [web_scraper.process_url, web_scraper.process_url_try, hb]

/-- Witness for C1: with an always-timing-out oracle the result is the
Failed triple with an absent count. -/
theorem C1_process_url_total_failed_witness :
    url_checker.process_url netAllTimeout (fun _ => 0) "http://a.test" 10
      = ("http://a.test", none, "Failed") :=
  (C1_process_url_total_failed netAllTimeout (fun _ => 0) "http://a.test" 10).1
    .timeout rfl

/-- C10: in both implementations the result triple of `process_url` is keyed
by the requested URL, and its status is exactly one of `'Success'` and
`'Failed'`. -/
theorem C10_process_url_key_and_status
    (net : Net) (countScripts : String → Nat) (url : String) (timeout : Nat) :
    ((url_checker.process_url net countScripts url timeout).1 = url
      ∧ ((url_checker.process_url net countScripts url timeout).2.2 = "Success"
          ∨ (url_checker.process_url net countScripts url timeout).2.2 = "Failed")
      ∧ ¬((url_checker.process_url net countScripts url timeout).2.2 = "Success"
          ∧ (url_checker.process_url net countScripts url timeout).2.2 = "Failed"))
    ∧ ((web_scraper.process_url net countScripts url timeout).1 = url
      ∧ ((web_scraper.process_url net countScripts url timeout).2.2 = "Success"
          ∨ (web_scraper.process_url net countScripts url timeout).2.2 = "Failed")
      ∧ ¬((web_scraper.process_url net countScripts url timeout).2.2 = "Success"
          ∧ (web_scraper.process_url net countScripts url timeout).2.2 = "Failed")) := by
  constructor
  · cases h : net url url_checker.userAgent timeout <;>
      simp [url_checker.process_url, url_checker.process_url_try, h]
  · cases h : net url web_scraper.userAgent timeout <;>
      simp [web_scraper.process_url, web_scraper.process_url_try, h]

/-! ### Splitting lemmas: `strip` does not change the token list -/

/-- Skipping leading whitespace does not change the token list. -/
theorem splitWsAux_dropWhile (l : List Char) :
    splitWsAux (l.dropWhile isPyWs) [] = splitWsAux l [] := by
  induction l with
  | nil => rfl
  | cons c rest ih =>
    rw [List.dropWhile_cons]
    by_cases h : isPyWs c
    · simpa [h, splitWsAux] using ih
    · simp [h]

/-- A run of pure whitespace only flushes the pending token. -/
theorem splitWsAux_all_ws (t : List Char) (ht : ∀ c ∈ t, isPyWs c) :
    ∀ acc : List Char,
      splitWsAux t acc = if acc.isEmpty then [] else [String.mk acc] := by
  induction t with
  | nil => intro acc; rfl
  | cons c t ih =>
    intro acc
    have hc : isPyWs c := ht c (by simp)
    have ih' := ih (fun c hm => ht c (by simp [hm]))
    by_cases ha : acc.isEmpty <;> simp [splitWsAux, hc, ha, ih']

/-- Trailing whitespace does not change the token list. -/
theorem splitWsAux_append_ws (t : List Char) (ht : ∀ c ∈ t, isPyWs c) :
    ∀ (l : List Char) (acc : List Char),
      splitWsAux (l ++ t) acc = splitWsAux l acc := by
  intro l
  induction l with
  | nil =>
    intro acc
    rw [List.nil_append, splitWsAux_all_ws t ht acc]
    rfl
  | cons c rest ih =>
    intro acc
    by_cases h : isPyWs c <;> by_cases ha : acc.isEmpty <;>
      simp [splitWsAux, h, ha, ih]

/-- `content.strip().split()` and `content.split()` agree. -/
theorem pySplit_pyStrip (s : String) : pySplit (pyStrip s) = pySplit s := by
  show splitWsAux (((s.data.dropWhile isPyWs).reverse.dropWhile isPyWs).reverse) []
      = splitWsAux s.data []
  have hsplit : s.data.dropWhile isPyWs
      = ((s.data.dropWhile isPyWs).reverse.dropWhile isPyWs).reverse
        ++ ((s.data.dropWhile isPyWs).reverse.takeWhile isPyWs).reverse := by
    conv_lhs => rw [← List.reverse_reverse (s.data.dropWhile isPyWs),
      ← List.takeWhile_append_dropWhile (p := isPyWs)
        (l := (s.data.dropWhile isPyWs).reverse)]
    rw [List.reverse_append]
  have ht : ∀ c ∈ ((s.data.dropWhile isPyWs).reverse.takeWhile isPyWs).reverse,
      isPyWs c := by
    intro c hc
    exact List.mem_takeWhile_imp (List.mem_reverse.mp hc)
  calc splitWsAux (((s.data.dropWhile isPyWs).reverse.dropWhile isPyWs).reverse) []
      = splitWsAux (((s.data.dropWhile isPyWs).reverse.dropWhile isPyWs).reverse
          ++ ((s.data.dropWhile isPyWs).reverse.takeWhile isPyWs).reverse) [] :=
        (splitWsAux_append_ws _ ht _ _).symm
    _ = splitWsAux (s.data.dropWhile isPyWs) [] := by rw [← hsplit]
    _ = splitWsAux s.data [] := splitWsAux_dropWhile s.data

/-- C4: `load_urls` (in both implementations) yields each distinct
whitespace-delimited token of the file exactly once — the returned list
has no duplicates and its elements are exactly the tokens of the file. -/
theorem C4_load_urls_unique_tokens (content : String) :
    (url_checker.load_urls content).Nodup
    ∧ (∀ x, x ∈ url_checker.load_urls content ↔ x ∈ pySplit content)
    ∧ (web_scraper.load_urls content).Nodup
    ∧ (∀ x, x ∈ web_scraper.load_urls content ↔ x ∈ pySplit content) := by
  refine ⟨List.nodup_dedup _, fun x => ?_, List.nodup_dedup _, fun x => ?_⟩ <;>
    simp only [url_checker.load_urls, web_scraper.load_urls, List.mem_dedup,
      pySplit_pyStrip]

/-! ### Store lemmas -/

/-- The first component of a `process_url` result is the requested URL. -/
theorem process_url_fst (net : Net) (countScripts : String → Nat)
    (url : String) (timeout : Nat) :
    (url_checker.process_url net countScripts url timeout).1 = url := by
  cases h : net url url_checker.userAgent timeout <;>
    simp [url_checker.process_url, url_checker.process_url_try, h]

/-- A `process_url` result satisfies the count-presence/status
correspondence. -/
theorem process_url_row_ok (net : Net) (countScripts : String → Nat)
    (url : String) (timeout : Nat) :
    ((url_checker.process_url net countScripts url timeout).2.1.isSome = true
      ↔ (url_checker.process_url net countScripts url timeout).2.2 = "Success") := by
  cases h : net url url_checker.userAgent timeout <;>
    simp [url_checker.process_url, url_checker.process_url_try, h]

/-- Unfolding one step of the commit loop. -/
theorem runSaves_cons (net : Net) (countScripts : String → Nat) (timeout : Nat)
    (store : Store) (u : String) (order : List String) :
    url_checker.runSaves net countScripts timeout store (u :: order)
      = url_checker.runSaves net countScripts timeout
          (url_checker.save_result store u
            (url_checker.process_url net countScripts u timeout).2.1
            (url_checker.process_url net countScripts u timeout).2.2)
          order := by
  show url_checker.runSaves net countScripts timeout
      (url_checker.save_result store
        (url_checker.process_url net countScripts u timeout).1
        (url_checker.process_url net countScripts u timeout).2.1
        (url_checker.process_url net countScripts u timeout).2.2)
      order = _
  rw [process_url_fst]

/-- Key membership after an upsert. -/
theorem mem_keys_save_result (store : Store) (url v : String)
    (sc : Option Nat) (st : String) :
    v ∈ Store.keys (url_checker.save_result store url sc st)
      ↔ v ∈ Store.keys store ∨ v = url := by
  simp only [Store.keys, url_checker.save_result, List.map_append,
    List.mem_append, List.map_cons, List.map_nil, List.mem_singleton]
  constructor
  · rintro (h | h)
    · rcases List.mem_map.mp h with ⟨r, hr, rfl⟩
      exact Or.inl (List.mem_map.mpr ⟨r, (List.mem_filter.mp hr).1, rfl⟩)
    · exact Or.inr h
  · rintro (h | rfl)
    · by_cases hv : v = url
      · exact Or.inr hv
      · rcases List.mem_map.mp h with ⟨r, hr, rfl⟩
        exact Or.inl (List.mem_map.mpr
          ⟨r, List.mem_filter.mpr ⟨hr, by simp [hv]⟩, rfl⟩)
    · exact Or.inr rfl

/-- An upsert under one key leaves the rows of every other key untouched. -/
theorem rowsFor_save_result_ne (store : Store) {u url : String} (h : u ≠ url)
    (sc : Option Nat) (st : String) :
    Store.rowsFor (url_checker.save_result store url sc st) u
      = Store.rowsFor store u := by
  simp only [Store.rowsFor, url_checker.save_result, List.filter_append,
    List.filter_filter]
  have h1 : List.filter (fun r : Row => r.url == u && r.url != url) store
      = List.filter (fun r : Row => r.url == u) store := by
    apply List.filter_congr
    intro r _
    by_cases hr : r.url = u
    · simp [hr, h]
    · simp [hr]
  have h2 : List.filter (fun r : Row => r.url == u) [(⟨url, sc, st⟩ : Row)] = [] := by
    simp [Ne.symm h]
  rw [h1, h2, List.append_nil]

/-- Key membership after a whole commit loop: exactly the old keys plus the
processed order. -/
theorem mem_keys_runSaves (net : Net) (countScripts : String → Nat)
    (timeout : Nat) :
    ∀ (order : List String) (store : Store) (v : String),
      v ∈ Store.keys (url_checker.runSaves net countScripts timeout store order)
        ↔ v ∈ Store.keys store ∨ v ∈ order := by
  intro order
  induction order with
  | nil => intro store v; simp [url_checker.runSaves]
  | cons u order ih =>
    intro store v
    rw [runSaves_cons, ih, mem_keys_save_result]
    simp [or_assoc, or_comm, or_left_comm]

/-- A commit loop not containing `u` leaves `u`'s rows byte-for-byte
unchanged. -/
theorem rowsFor_runSaves_not_mem (net : Net) (countScripts : String → Nat)
    (timeout : Nat) :
    ∀ (order : List String) (store : Store) (u : String), u ∉ order →
      Store.rowsFor (url_checker.runSaves net countScripts timeout store order) u
        = Store.rowsFor store u := by
  intro order
  induction order with
  | nil => intro store u _; rfl
  | cons w order ih =>
    intro store u hu
    rw [runSaves_cons, ih _ _ (fun hmem => hu (List.mem_cons_of_mem _ hmem)),
      rowsFor_save_result_ne _
        (fun he => hu (by rw [he]; exact List.mem_cons_self _ _))]

/-- Membership in `main`'s work list. -/
theorem mem_urls_to_process (store : Store) (urls : List String) (v : String) :
    v ∈ url_checker.urls_to_process store urls
      ↔ v ∈ urls ∧ ¬v ∈ Store.keys store := by
  simp [url_checker.urls_to_process, List.mem_filter,
    url_checker.get_processed_urls, List.contains, List.elem_iff,
    List.mem_dedup, Store.keys]

/-- An upsert whose row satisfies the count-presence/status correspondence
preserves the store invariant. -/
theorem storeInvariant_save (store : Store) (h : storeInvariant store)
    (url : String) (sc : Option Nat) (st : String)
    (hrow : sc.isSome = true ↔ st = "Success") :
    storeInvariant (url_checker.save_result store url sc st) := by
  obtain ⟨hnd, hok⟩ := h
  constructor
  · simp only [Store.keys, url_checker.save_result, List.map_append,
      List.map_cons, List.map_nil]
    rw [List.nodup_append]
    refine ⟨List.Nodup.sublist ((List.filter_sublist store).map Row.url) hnd,
      List.nodup_singleton _, ?_⟩
    intro a ha hb
    rcases List.mem_map.mp ha with ⟨r, hr, hru⟩
    have hne := (List.mem_filter.mp hr).2
    simp only [List.mem_singleton] at hb
    subst hb
    simp [hru] at hne
  · intro r hr
    rcases List.mem_append.mp hr with h1 | h1
    · exact hok r (List.mem_filter.mp h1).1
    · simp only [List.mem_singleton] at h1
      subst h1
      exact hrow

/-- The commit loop preserves the store invariant, whatever the order. -/
theorem storeInvariant_runSaves (net : Net) (countScripts : String → Nat)
    (timeout : Nat) :
    ∀ (order : List String) (store : Store), storeInvariant store →
      storeInvariant (url_checker.runSaves net countScripts timeout store order) := by
  intro order
  induction order with
  | nil => intro store h; exact h
  | cons u order ih =>
    intro store h
    rw [runSaves_cons]
    exact ih _ (storeInvariant_save _ h _ _ _
      (process_url_row_ok net countScripts u timeout))

/-- C2: if the store satisfies the invariant (at most one row per URL and
`script_count` present iff `status = Success`), then it still does after
any single upsert of a fetch-shaped row and after the whole commit loop of
a run, whatever the completion order. -/
theorem C2_store_invariant (net : Net) (countScripts : String → Nat)
    (timeout : Nat) (store : Store) (h : storeInvariant store) :
    (∀ (url : String) (sc : Option Nat) (st : String),
        (sc.isSome = true ↔ st = "Success") →
          storeInvariant (url_checker.save_result store url sc st))
    ∧ ∀ order : List String,
        storeInvariant (url_checker.runSaves net countScripts timeout store order) :=
  ⟨fun url sc st hrow => storeInvariant_save store h url sc st hrow,
   fun order => storeInvariant_runSaves net countScripts timeout order store h⟩

/-- Witness for C2: a run over an empty store yields an invariant store. -/
theorem C2_store_invariant_witness :
    storeInvariant (url_checker.runSaves netAllTimeout (fun _ => 0) 10 []
      ["http://a.test"]) :=
  (C2_store_invariant netAllTimeout (fun _ => 0) 10 []
    ⟨List.nodup_nil, by simp⟩).2 ["http://a.test"]

/-- C3: a URL `u` already in the store when a run starts is not fetched
(it is in no completion order of that run's work list), its rows are
byte-for-byte unchanged by the run, and the work list holds exactly the
input URLs not already present in the store. -/
theorem C3_already_processed_untouched (net : Net) (countScripts : String → Nat)
    (timeout : Nat) (store : Store) (urls : List String) (u : String)
    (hu : u ∈ Store.keys store) :
    (∀ order : List String,
        order.Perm (url_checker.urls_to_process store urls) →
          u ∉ order
          ∧ Store.rowsFor
              (url_checker.runSaves net countScripts timeout store order) u
            = Store.rowsFor store u)
    ∧ ∀ v, v ∈ url_checker.urls_to_process store urls
        ↔ v ∈ urls ∧ ¬v ∈ Store.keys store := by
  constructor
  · intro order hperm
    have hnot : u ∉ order := fun hmem =>
      ((mem_urls_to_process store urls u).mp (hperm.subset hmem)).2 hu
    exact ⟨hnot, rowsFor_runSaves_not_mem net countScripts timeout order store u hnot⟩
  · exact mem_urls_to_process store urls

/-- Witness for C3: with `a.test` already stored and input `a.test c.test`,
the run leaves `a.test`'s row untouched. -/
theorem C3_already_processed_untouched_witness :
    "http://a.test" ∉ url_checker.urls_to_process
        [⟨"http://a.test", some 2, "Success"⟩]
        (url_checker.load_urls "http://a.test http://c.test")
    ∧ Store.rowsFor
        (url_checker.runSaves netStubScenario countScriptsScenario 10
          [⟨"http://a.test", some 2, "Success"⟩]
          (url_checker.urls_to_process [⟨"http://a.test", some 2, "Success"⟩]
            (url_checker.load_urls "http://a.test http://c.test")))
        "http://a.test"
      = Store.rowsFor [⟨"http://a.test", some 2, "Success"⟩] "http://a.test" :=
  (C3_already_processed_untouched netStubScenario countScriptsScenario 10
      [⟨"http://a.test", some 2, "Success"⟩]
      (url_checker.load_urls "http://a.test http://c.test") "http://a.test"
      (by simp [Store.keys])).1 _ (List.Perm.refl _)

/-- C5: after one run, every input URL is already processed (the second
run's work list is empty) and the second run, whatever its completion
order, leaves the store exactly as the first run left it. -/
theorem C5_second_run_no_op (net : Net) (countScripts : String → Nat)
    (timeout : Nat) (store : Store) (content : String) (order : List String)
    (h1 : order.Perm
      (url_checker.urls_to_process store (url_checker.load_urls content))) :
    url_checker.urls_to_process
        (url_checker.runSaves net countScripts timeout store order)
        (url_checker.load_urls content) = []
    ∧ ∀ order2 : List String,
        order2.Perm (url_checker.urls_to_process
          (url_checker.runSaves net countScripts timeout store order)
          (url_checker.load_urls content)) →
        url_checker.runSaves net countScripts timeout
            (url_checker.runSaves net countScripts timeout store order) order2
          = url_checker.runSaves net countScripts timeout store order := by
  have hall : url_checker.urls_to_process
      (url_checker.runSaves net countScripts timeout store order)
      (url_checker.load_urls content) = [] := by
    apply List.eq_nil_iff_forall_not_mem.mpr
    intro v hv
    rw [mem_urls_to_process] at hv
    obtain ⟨hvurls, hvnot⟩ := hv
    apply hvnot
    rw [mem_keys_runSaves]
    by_cases hk : v ∈ Store.keys store
    · exact Or.inl hk
    · exact Or.inr (h1.mem_iff.mpr ((mem_urls_to_process _ _ v).mpr ⟨hvurls, hk⟩))
  refine ⟨hall, fun order2 h2 => ?_⟩
  rw [hall] at h2
  rw [h2.eq_nil]
  rfl

/-- Witness for C5: the concrete scenario run twice; the second work list
is empty and the second run changes nothing. -/
theorem C5_second_run_no_op_witness :
    url_checker.urls_to_process
        (url_checker.runSaves netStubScenario countScriptsScenario 10 []
          (url_checker.urls_to_process []
            (url_checker.load_urls "http://a.test http://a.test http://b.test")))
        (url_checker.load_urls "http://a.test http://a.test http://b.test") = []
    ∧ ∀ order2 : List String,
        order2.Perm (url_checker.urls_to_process
          (url_checker.runSaves netStubScenario countScriptsScenario 10 []
            (url_checker.urls_to_process []
              (url_checker.load_urls "http://a.test http://a.test http://b.test")))
          (url_checker.load_urls "http://a.test http://a.test http://b.test")) →
        url_checker.runSaves netStubScenario countScriptsScenario 10
            (url_checker.runSaves netStubScenario countScriptsScenario 10 []
              (url_checker.urls_to_process []
                (url_checker.load_urls "http://a.test http://a.test http://b.test")))
            order2
          = url_checker.runSaves netStubScenario countScriptsScenario 10 []
              (url_checker.urls_to_process []
                (url_checker.load_urls "http://a.test http://a.test http://b.test")) :=
  C5_second_run_no_op netStubScenario countScriptsScenario 10 []
    "http://a.test http://a.test http://b.test" _ (List.Perm.refl _)

/-! ### The two implementations agree -/

/-- `web_scraper`'s `process_url` is also keyed by the requested URL. -/
theorem ws_process_url_fst (net : Net) (countScripts : String → Nat)
    (url : String) (timeout : Nat) :
    (web_scraper.process_url net countScripts url timeout).1 = url := by
  cases h : net url web_scraper.userAgent timeout <;>
    simp [web_scraper.process_url, web_scraper.process_url_try, h]

/-- Unfolding one step of `web_scraper`'s commit loop. -/
theorem ws_runSaves_cons (net : Net) (countScripts : String → Nat) (timeout : Nat)
    (store : Store) (u : String) (order : List String) :
    web_scraper.runSaves net countScripts timeout store (u :: order)
      = web_scraper.runSaves net countScripts timeout
          (web_scraper.save_result store u
            (web_scraper.process_url net countScripts u timeout).2.1
            (web_scraper.process_url net countScripts u timeout).2.2)
          order := by
  show web_scraper.runSaves net countScripts timeout
      (web_scraper.save_result store
        (web_scraper.process_url net countScripts u timeout).1
        (web_scraper.process_url net countScripts u timeout).2.1
        (web_scraper.process_url net countScripts u timeout).2.2)
      order = _
  rw [ws_process_url_fst]

/-- C9: for the same inputs the two implementations compute identical
results — `load_urls`, `get_processed_urls`, `save_result`,
`export_to_csv` and the work-list computation are equal outright, and
`process_url`, the commit loop and a whole `main` run are equal for every
network oracle that does not distinguish the two `User-Agent`
configuration strings. -/
theorem C9_implementations_agree (net : Net) (countScripts : String → Nat)
    (timeout : Nat) (content : String) (store : Store) (url : String)
    (sc : Option Nat) (st : String) (order : List String)
    (hua : ∀ (u a a' : String) (t : Nat), net u a t = net u a' t) :
    url_checker.load_urls content = web_scraper.load_urls content
    ∧ url_checker.get_processed_urls store = web_scraper.get_processed_urls store
    ∧ url_checker.save_result store url sc st
        = web_scraper.save_result store url sc st
    ∧ url_checker.export_to_csv store = web_scraper.export_to_csv store
    ∧ url_checker.urls_to_process store (url_checker.load_urls content)
        = web_scraper.urls_to_process store (web_scraper.load_urls content)
    ∧ url_checker.process_url net countScripts url timeout
        = web_scraper.process_url net countScripts url timeout
    ∧ url_checker.runSaves net countScripts timeout store order
        = web_scraper.runSaves net countScripts timeout store order
    ∧ url_checker.main_run net countScripts timeout content store
        = web_scraper.main_run net countScripts timeout content store := by
  have hproc : ∀ u : String,
      url_checker.process_url net countScripts u timeout
        = web_scraper.process_url net countScripts u timeout := by
    intro u
    unfold url_checker.process_url web_scraper.process_url
      url_checker.process_url_try web_scraper.process_url_try
    rw [hua u url_checker.userAgent web_scraper.userAgent timeout]
  have hsave : url_checker.save_result = web_scraper.save_result := rfl
  have hrun : ∀ (ord : List String) (s : Store),
      url_checker.runSaves net countScripts timeout s ord
        = web_scraper.runSaves net countScripts timeout s ord := by
    intro ord
    induction ord with
    | nil => intro s; rfl
    | cons u ord ih =>
      intro s
      rw [runSaves_cons, ws_runSaves_cons, ← hproc u, ← hsave]
      exact ih _
  exact ⟨rfl, rfl, rfl, rfl, rfl, hproc url, hrun order store,
    hrun (url_checker.urls_to_process store (url_checker.load_urls content)) store⟩

/-- Witness for C9: a user-agent-blind oracle makes a concrete `main` run
of the two implementations agree. -/
theorem C9_implementations_agree_witness :
    url_checker.main_run netAllTimeout (fun _ => 0) 10 "http://a.test" []
      = web_scraper.main_run netAllTimeout (fun _ => 0) 10 "http://a.test" [] :=
  (C9_implementations_agree netAllTimeout (fun _ => 0) 10 "http://a.test" []
    "http://a.test" none "" [] (fun _ _ _ _ => rfl)).2.2.2.2.2.2.2

/-- A permutation of a two-element list of distinct elements is one of its
two arrangements. -/
theorem perm_pair_cases {α : Type} {l : List α} {a b : α} (hab : a ≠ b)
    (h : l.Perm [a, b]) : l = [a, b] ∨ l = [b, a] := by
  have hlen : l.length = 2 := h.length_eq
  match l, hlen with
  | [x, y], _ =>
    have hx : x = a ∨ x = b := by
      have hm : x ∈ [a, b] := h.subset (by simp)
      simpa using hm
    have hy : y = a ∨ y = b := by
      have hm : y ∈ [a, b] := h.subset (by simp)
      simpa using hm
    have hnd : x ≠ y := by
      have hxy : ([x, y] : List α).Nodup := (h.nodup_iff).mpr (by simp [hab])
      simpa using (List.nodup_cons.mp hxy).1
    rcases hx with hxa | hxb
    · rcases hy with hya | hyb
      · exact absurd (hxa.trans hya.symm) hnd
      · exact Or.inl (by rw [hxa, hyb])
    · rcases hy with hya | hyb
      · exact Or.inr (by rw [hxb, hya])
      · exact absurd (hxb.trans hyb.symm) hnd

/-- C6: on input file `http://a.test http://a.test http://b.test`, an empty
store, and the Fetcher stub serving two script tags for `a.test` and
timing out on `b.test`, any completion order leaves the store holding
exactly `a.test ↦ (2, Success)` and `b.test ↦ (absent, Failed)`, and the
exported CSV has exactly 3 CRLF-terminated lines. -/
theorem C6_concrete_scenario (order : List String)
    (h : order.Perm (url_checker.urls_to_process []
      (url_checker.load_urls "http://a.test http://a.test http://b.test"))) :
    (url_checker.runSaves netStubScenario countScriptsScenario 10 [] order).Perm
        [⟨"http://a.test", some 2, "Success"⟩, ⟨"http://b.test", none, "Failed"⟩]
    ∧ crlfCount (url_checker.export_to_csv
        (url_checker.runSaves netStubScenario countScriptsScenario 10 []
          order)).data = 3 := by
  have hutp : url_checker.urls_to_process []
      (url_checker.load_urls "http://a.test http://a.test http://b.test")
      = ["http://a.test", "http://b.test"] := by decide
  rw [hutp] at h
  rcases perm_pair_cases (by decide) h with rfl | rfl
  · exact ⟨by decide, by decide⟩
  · exact ⟨by decide, by decide⟩

/-- Witness for C6: the canonical completion order. -/
theorem C6_concrete_scenario_witness :
    (url_checker.runSaves netStubScenario countScriptsScenario 10 []
        (url_checker.urls_to_process []
          (url_checker.load_urls "http://a.test http://a.test http://b.test"))).Perm
        [⟨"http://a.test", some 2, "Success"⟩, ⟨"http://b.test", none, "Failed"⟩]
    ∧ crlfCount (url_checker.export_to_csv
        (url_checker.runSaves netStubScenario countScriptsScenario 10 []
          (url_checker.urls_to_process []
            (url_checker.load_urls
              "http://a.test http://a.test http://b.test")))).data = 3 :=
  C6_concrete_scenario _ (List.Perm.refl _)

/-! ### Decimal rendering round-trip: `str(count)` parses back -/

theorem toDigitsCore_append (fuel : Nat) :
    ∀ (n : Nat) (ds : List Char),
      Nat.toDigitsCore 10 fuel n ds = Nat.toDigitsCore 10 fuel n [] ++ ds := by
  induction fuel with
  | zero => intro n ds; simp [Nat.toDigitsCore]
  | succ fuel ih =>
    intro n ds
    simp only [Nat.toDigitsCore]
    by_cases h : n / 10 = 0
    · simp [h]
    · simp only [h, if_false]
      rw [ih (n / 10) (Nat.digitChar (n % 10) :: ds),
        ih (n / 10) [Nat.digitChar (n % 10)], List.append_assoc]
      rfl

theorem toDigitsCore_eq_decDigits (fuel : Nat) :
    ∀ n : Nat, n < fuel → Nat.toDigitsCore 10 fuel n [] = decDigits n := by
  induction fuel with
  | zero => intro n h; omega
  | succ fuel ih =>
    intro n h
    simp only [Nat.toDigitsCore]
    by_cases h10 : n < 10
    · have hdiv : n / 10 = 0 := Nat.div_eq_of_lt h10
      rw [decDigits]
      simp [hdiv, h10, Nat.mod_eq_of_lt h10]
    · have hdiv : ¬ n / 10 = 0 := by
        have : 1 ≤ n / 10 := (Nat.one_le_div_iff (by omega)).mpr (by omega)
        omega
      have hlt : n / 10 < fuel :=
        Nat.lt_of_lt_of_le (Nat.div_lt_self (by omega) (by omega)) (by omega)
      rw [if_neg hdiv, toDigitsCore_append, ih (n / 10) hlt]
      conv_rhs => rw [decDigits]
      rw [if_neg h10]

theorem repr_data (n : Nat) : (Nat.repr n).data = decDigits n := by
  show (Nat.toDigits 10 n).asString.data = decDigits n
  rw [Nat.toDigits, toDigitsCore_eq_decDigits (n + 1) n (by omega)]
  rfl

theorem digitChar_toNat (d : Nat) (h : d < 10) :
    (Nat.digitChar d).toNat = d + 48 := by
  interval_cases d <;> rfl

theorem digitChar_isDigit (d : Nat) (h : d < 10) :
    (Nat.digitChar d).isDigit = true := by
  interval_cases d <;> rfl

theorem decDigits_foldl (n : Nat) :
    ∀ i : Nat,
      List.foldl (fun m c => m * 10 + (c.toNat - '0'.toNat)) i (decDigits n)
        = i * decPow n + n := by
  induction n using Nat.strong_induction_on with
  | _ n ih =>
    intro i
    by_cases h : n < 10
    · rw [decDigits, decPow]
      simp only [h, if_true, List.foldl_cons, List.foldl_nil]
      rw [digitChar_toNat n h]
      have h48 : ('0'.toNat) = 48 := rfl
      rw [h48]
      omega
    · have hd : decDigits n = decDigits (n / 10) ++ [Nat.digitChar (n % 10)] := by
        conv_lhs => rw [decDigits]
        rw [if_neg h]
      have hp : decPow n = decPow (n / 10) * 10 := by
        conv_lhs => rw [decPow]
        rw [if_neg h]
      rw [hd, hp, List.foldl_append,
        ih (n / 10) (Nat.div_lt_self (by omega) (by omega)) i]
      simp only [List.foldl_cons, List.foldl_nil]
      rw [digitChar_toNat (n % 10) (Nat.mod_lt n (by omega))]
      have h48 : ('0'.toNat) = 48 := rfl
      rw [h48, Nat.add_sub_cancel, Nat.add_mul, Nat.add_assoc, ← Nat.mul_assoc]
      have hmod : n / 10 * 10 + n % 10 = n := by omega
      rw [hmod]

theorem decDigits_all_digits (n : Nat) :
    ∀ c ∈ decDigits n, c.isDigit = true := by
  induction n using Nat.strong_induction_on with
  | _ n ih =>
    intro c hc
    by_cases h : n < 10
    · rw [decDigits] at hc
      simp only [h, if_true, List.mem_singleton] at hc
      subst hc
      exact digitChar_isDigit n h
    · rw [decDigits] at hc
      simp only [h, if_false, List.mem_append, List.mem_singleton] at hc
      rcases hc with hc | hc
      · exact ih (n / 10) (Nat.div_lt_self (by omega) (by omega)) c hc
      · subst hc
        exact digitChar_isDigit (n % 10) (Nat.mod_lt n (by omega))

theorem decDigits_ne_nil (n : Nat) : decDigits n ≠ [] := by
  rw [decDigits]
  by_cases h : n < 10 <;> simp [h]

theorem toNat?_repr (n : Nat) : (Nat.repr n).toNat? = some n := by
  have hne : ¬(Nat.repr n) = "" := by
    intro he
    have hd : (Nat.repr n).data = [] := by rw [he]
    rw [repr_data] at hd
    exact decDigits_ne_nil n hd
  have hnat : (Nat.repr n).isNat = true := by
    rw [String.isNat]
    apply Bool.and_eq_true_iff.mpr
    constructor
    · exact congrArg (!·) (Bool.eq_false_iff.mpr
        (fun hemp => hne ((String.isEmpty_iff _).mp hemp)))
    · rw [String.all_eq, repr_data]
      exact List.all_eq_true.mpr (decDigits_all_digits n)
  rw [String.toNat?, if_pos hnat, String.foldl_eq, repr_data]
  rw [decDigits_foldl n 0]
  simp

theorem toNat?_toString (n : Nat) : (toString n).toNat? = some n := toNat?_repr n

/-! ### CSV reader/writer lemmas -/

theorem csvParseAux_comma (x acc : List Char) (row : List String) :
    csvParseAux false (',' :: x) acc row
      = csvParseAux false x [] (row ++ [String.mk acc]) := by
  rw [csvParseAux.eq_def]; simp

theorem csvParseAux_crlf (x acc : List Char) (row : List String) :
    csvParseAux false ('\r' :: '\n' :: x) acc row
      = csvFlush acc row ++ csvParseAux false x [] [] := by
  rw [csvParseAux.eq_def]; simp

theorem csvParseAux_other (c : Char) (x acc : List Char) (row : List String)
    (h1 : ¬c = ',') (h2 : ¬c = '"') (h3 : ¬c = '\r') (h4 : ¬c = '\n') :
    csvParseAux false (c :: x) acc row = csvParseAux false x (acc ++ [c]) row := by
  rw [csvParseAux.eq_def]; simp [h1, h2, h3, h4]

theorem csvParseAux_openQuote (x : List Char) (row : List String) :
    csvParseAux false ('"' :: x) [] row = csvParseAux true x [] row := by
  rw [csvParseAux.eq_def]; simp

theorem csvParseAux_q_other (c : Char) (x acc : List Char) (row : List String)
    (h : ¬c = '"') :
    csvParseAux true (c :: x) acc row = csvParseAux true x (acc ++ [c]) row := by
  rw [csvParseAux.eq_def]; simp [h]

theorem csvParseAux_q_esc (x acc : List Char) (row : List String) :
    csvParseAux true ('"' :: '"' :: x) acc row
      = csvParseAux true x (acc ++ ['"']) row := rfl

theorem csvParseAux_q_close (c2 : Char) (x acc : List Char) (row : List String)
    (h : ¬c2 = '"') :
    csvParseAux true ('"' :: c2 :: x) acc row
      = csvParseAux false (c2 :: x) acc row := by
  rw [csvParseAux.eq_def]; simp [h]

theorem csvParseAux_q_close_nil (acc : List Char) (row : List String) :
    csvParseAux true ['"'] acc row = csvParseAux false [] acc row := by
  rw [csvParseAux.eq_def]; simp

/-- Scanning a run of non-special characters just accumulates them. -/
theorem csvParseAux_scan_unquoted (l : List Char)
    (h : ∀ c ∈ l, ¬(c = ',' ∨ c = '"' ∨ c = '\r' ∨ c = '\n')) :
    ∀ (rest acc : List Char) (row : List String),
      csvParseAux false (l ++ rest) acc row
        = csvParseAux false rest (acc ++ l) row := by
  induction l with
  | nil => intro rest acc row; simp
  | cons c t ih =>
    intro rest acc row
    have hc := h c (by simp)
    push_neg at hc
    obtain ⟨h1, h2, h3, h4⟩ := hc
    rw [List.cons_append, csvParseAux_other c _ acc row h1 h2 h3 h4,
      ih (fun c hm => h c (by simp [hm])) rest (acc ++ [c]) row,
      List.append_assoc]
    rfl

/-- Scanning escaped quoted content just accumulates the original content. -/
theorem csvParseAux_scan_quoted (l : List Char) :
    ∀ (rest acc : List Char) (row : List String),
      csvParseAux true (csvEscape l ++ rest) acc row
        = csvParseAux true rest (acc ++ l) row := by
  induction l with
  | nil => intro rest acc row; simp [csvEscape]
  | cons c t ih =>
    intro rest acc row
    by_cases hc : c = '"'
    · subst hc
      show csvParseAux true ('"' :: '"' :: (csvEscape t ++ rest)) acc row = _
      rw [csvParseAux_q_esc, ih rest (acc ++ ['"']) row, List.append_assoc]
      rfl
    · have he : csvEscape (c :: t) = c :: csvEscape t := by
        rw [csvEscape, if_neg hc]
      rw [he, List.cons_append, csvParseAux_q_other c _ acc row hc,
        ih rest (acc ++ [c]) row, List.append_assoc]
      rfl

/-- Reading one serialised field from field-start position consumes exactly
the field (the continuation must not begin with a quote, which the
writer's own separators guarantee). -/
theorem csvParseAux_field (f : String) (rest : List Char) (row : List String)
    (hrest : rest.head? ≠ some '"') :
    csvParseAux false ((csvQuote f).data ++ rest) [] row
      = csvParseAux false rest f.data row := by
  by_cases hq : csvNeedsQuote f
  · have hdata : (csvQuote f).data = '"' :: (csvEscape f.data ++ ['"']) := by
      simp [csvQuote, hq]
    rw [hdata, List.cons_append, csvParseAux_openQuote, List.append_assoc,
      csvParseAux_scan_quoted f.data (['"'] ++ rest) [] row]
    cases rest with
    | nil => exact csvParseAux_q_close_nil f.data row
    | cons c2 x =>
      have hc2 : ¬c2 = '"' := by
        intro hc
        exact hrest (by simp [hc])
      exact csvParseAux_q_close c2 x f.data row hc2
  · have hdata : (csvQuote f).data = f.data := by simp [csvQuote, hq]
    have hns : ∀ c ∈ f.data, ¬(c = ',' ∨ c = '"' ∨ c = '\r' ∨ c = '\n') := by
      intro c hc hor
      apply hq
      unfold csvNeedsQuote
      apply List.any_eq_true.mpr
      refine ⟨c, hc, ?_⟩
      rcases hor with h | h | h | h <;> simp [h]
    rw [hdata, csvParseAux_scan_unquoted f.data hns rest [] row]
    rfl

/-- Shifting the accumulator out of `String.intercalate.go`. -/
theorem intercalate_go_shift (s : String) :
    ∀ (as : List String) (acc x : String),
      String.intercalate.go (acc ++ x) s as
        = acc ++ String.intercalate.go x s as := by
  intro as
  induction as with
  | nil => intro acc x; rfl
  | cons a as ih =>
    intro acc x
    show String.intercalate.go (acc ++ x ++ s ++ a) s as = _
    rw [show acc ++ x ++ s ++ a = acc ++ (x ++ s ++ a) from String.ext (by simp)]
    exact ih acc (x ++ s ++ a)

theorem csvWriteRow_data_single (f : String) :
    (csvWriteRow [f]).data = (csvQuote f).data ++ ['\r', '\n'] := rfl

theorem csvWriteRow_data_cons (f g : String) (fs : List String) :
    (csvWriteRow (f :: g :: fs)).data
      = (csvQuote f).data ++ ',' :: (csvWriteRow (g :: fs)).data := by
  show (String.intercalate.go (csvQuote f ++ "," ++ csvQuote g) ","
      (fs.map csvQuote) ++ "\r\n").data = _
  rw [intercalate_go_shift "," (fs.map csvQuote) (csvQuote f ++ ",") (csvQuote g)]
  show (((csvQuote f ++ ",") ++ (String.intercalate.go (csvQuote g) ","
      (fs.map csvQuote))) ++ "\r\n").data
    = (csvQuote f).data ++ ',' :: (String.intercalate.go (csvQuote g) ","
      (fs.map csvQuote) ++ "\r\n").data
  simp

/-- Reading one serialised record from record-start position consumes the
record and yields its fields (the record must not be degenerate: either
fields were already read, or it is not the lone empty field, which a
header of three fields always satisfies). -/
theorem csvParseAux_record (fs : List String) :
    ∀ (rest : List Char) (row : List String), fs ≠ [] →
      (row ≠ [] ∨ fs ≠ [""]) →
      csvParseAux false ((csvWriteRow fs).data ++ rest) [] row
        = (row ++ fs) :: csvParseAux false rest [] [] := by
  induction fs with
  | nil => intro rest row hne _; exact absurd rfl hne
  | cons f fs ih =>
    intro rest row _ hflush
    cases fs with
    | nil =>
      rw [csvWriteRow_data_single, List.append_assoc,
        csvParseAux_field f _ row (by simp)]
      show csvParseAux false ('\r' :: '\n' :: rest) f.data row = _
      rw [csvParseAux_crlf]
      have hfl : csvFlush f.data row = [row ++ [f]] := by
        rcases hflush with h | h
        · have : ¬row.isEmpty := by simp [List.isEmpty_iff, h]
          simp only [csvFlush, this, Bool.and_false, if_false]
          rfl
        · have hf : ¬f = "" := by simpa using h
          have hd : ¬f.data.isEmpty := by
            simp only [List.isEmpty_iff]
            intro hdd
            exact hf (String.ext hdd)
          simp only [csvFlush, hd, Bool.false_and, if_false]
          rfl
      rw [hfl]
      rfl
    | cons g fs' =>
      rw [csvWriteRow_data_cons, List.append_assoc,
        csvParseAux_field f _ row (by simp)]
      show csvParseAux false (',' :: ((csvWriteRow (g :: fs')).data ++ rest))
          f.data row = _
      rw [csvParseAux_comma,
        show String.mk f.data = f from rfl,
        ih rest (row ++ [f]) (by simp) (Or.inl (by simp))]
      simp

/-- Parsing the concatenation of serialised records yields the records. -/
theorem csvParse_join (rows : List (List String))
    (h : ∀ r ∈ rows, r ≠ [] ∧ r ≠ [""]) :
    csvParseAux false (String.join (rows.map csvWriteRow)).data [] [] = rows := by
  induction rows with
  | nil => rfl
  | cons r rows ih =>
    rw [String.data_join, List.map_cons, List.map_cons, List.flatten_cons,
      csvParseAux_record r _ [] (h r (by simp)).1 (Or.inr (h r (by simp)).2)]
    rw [show (List.map String.data (List.map csvWriteRow rows)).flatten
        = (String.join (rows.map csvWriteRow)).data from (String.data_join _).symm]
    rw [ih (fun r2 hr2 => h r2 (by simp [hr2]))]
    simp

/-- Parsing the exported CSV yields the header record followed by one
record per stored row, in scan order. -/
theorem export_to_csv_parse (store : Store) :
    csvParse (url_checker.export_to_csv store)
      = ["URL", "Script Count", "Status"] :: store.map url_checker.rowToFields := by
  have hjoin : url_checker.export_to_csv store
      = String.join (((["URL", "Script Count", "Status"] : List String)
          :: store.map url_checker.rowToFields).map csvWriteRow) := by
    rw [url_checker.export_to_csv, List.map_cons, List.map_map]
    rfl
  rw [csvParse, hjoin]
  apply csvParse_join
  intro r hr
  rcases List.mem_cons.mp hr with h | h
  · subst h
    exact ⟨by simp, by simp⟩
  · rcases List.mem_map.mp h with ⟨rw0, _, hre⟩
    subst hre
    exact ⟨by simp [url_checker.rowToFields], by simp [url_checker.rowToFields]⟩

/-- `str(n)` is never the empty string. -/
theorem toString_nat_ne_empty (n : Nat) : ¬(toString n) = "" := by
  intro h
  have hd : (toString n).data = [] := by rw [h]
  have heq : toString n = Nat.repr n := rfl
  rw [heq, repr_data] at hd
  exact decDigits_ne_nil n hd

/-- Reading a serialised row back yields the row. -/
theorem fieldsToRow_rowToFields (r : Row) :
    fieldsToRow? (url_checker.rowToFields r) = some r := by
  rcases r with ⟨u, sc, st⟩
  cases sc with
  | none => simp [url_checker.rowToFields, fieldsToRow?]
  | some n =>
    simp only [url_checker.rowToFields, fieldsToRow?]
    rw [if_neg (toString_nat_ne_empty n), toNat?_toString n]
    rfl

/-- C7: the Exporter writes exactly one header record with fields
`URL`, `Script Count`, `Status`, followed by one record per stored result
in the order the full-table scan returns them; a row with an absent
`script_count` is serialised with an empty second field; and writing in
mode `'w'` replaces any previous file content entirely. -/
theorem C7_export_csv_structure (store : Store) :
    csvParse (url_checker.export_to_csv store)
      = ["URL", "Script Count", "Status"] :: store.map url_checker.rowToFields
    ∧ (∀ r : Row, r.script_count = none →
        url_checker.rowToFields r = [r.url, "", r.status])
    ∧ (∀ old : Option String,
        fileWriteTrunc old (url_checker.export_to_csv store)
          = url_checker.export_to_csv store) :=
  ⟨export_to_csv_parse store,
   fun r h => by simp [url_checker.rowToFields, h],
   fun _ => rfl⟩

/-- Witness for C7: a concrete `Failed` row serialises with an empty second
field, and a write replaces concrete previous content. -/
theorem C7_export_csv_structure_witness :
    url_checker.rowToFields ⟨"http://b.test", none, "Failed"⟩
      = ["http://b.test", "", "Failed"]
    ∧ fileWriteTrunc (some "stale") (url_checker.export_to_csv [])
      = url_checker.export_to_csv [] :=
  ⟨(C7_export_csv_structure []).2.1 ⟨"http://b.test", none, "Failed"⟩ rfl,
   (C7_export_csv_structure []).2.2 (some "stale")⟩

/-- C8: re-reading the exported CSV gives back, after the header, exactly
the stored rows in scan order — so the same set of
(url, script_count, status) triples as the full-table scan, with the empty
second field read back as an absent count and a decimal second field as
the count itself. -/
theorem C8_export_round_trip (store : Store) :
    (csvParse (url_checker.export_to_csv store)).tail
        = store.map url_checker.rowToFields
    ∧ (csvParse (url_checker.export_to_csv store)).tail.map fieldsToRow?
        = store.map some := by
  have h := export_to_csv_parse store
  constructor
  · rw [h]
    rfl
  · rw [h]
    show (store.map url_checker.rowToFields).map fieldsToRow? = store.map some
    rw [List.map_map]
    exact List.map_congr_left (fun r _ => fieldsToRow_rowToFields r)
